import Mathlib

/-!
Verification development for the file-to-image repository
(CharmsMods/file-to-image).

Shallow embedding of the container codec, dimension planner and pixel
mapper found in src/js/utils/canvas.js (multi-file format) and
src/unnamed/part_001 (single-file format).  Byte buffers (JS
ArrayBuffer / Uint8Array contents) are lists of naturals; DataView and
typed-array operations that can raise a JS RangeError are modelled with
Option, and the decoders return Except with one constructor per throw
site of the source.  All loops are modelled with structural recursion
(an explicit iteration count or a fuel bound that dominates the number
of iterations, the loop stopping through its own condition exactly as
the source does), so every definition evaluates inside the kernel.
-/

set_option maxRecDepth 100000

deriving instance DecidableEq for Except

/-- JS byte buffers (ArrayBuffer / Uint8Array contents) as lists of naturals. -/
abbrev Bytes := List Nat

/-- canvas.js line 4: bytes reserved for the main header of the multi-file format. -/
def HEADER_SIZE : Nat := 64

/-- canvas.js line 5: bytes reserved for each per-file header. -/
def FILE_HEADER_SIZE : Nat := 128

/-- canvas.js line 6 and part_001 line 5: 512KB processing chunk. -/
def CHUNK_SIZE : Nat := 1024 * 512

/-- part_001 line 4: bytes reserved for the single-file header. -/
def SF_HEADER_SIZE : Nat := 32

/-- part_001 line 191: Math.ceil(CHUNK_SIZE / 3), the pixel count per decode chunk. -/
def PIXEL_CHUNK : Nat := (CHUNK_SIZE + 2) / 3

/-- One input file of encodeFilesToCanvas: name and type hold the UTF-8
bytes of the JS strings (the empty string corresponds to the empty list),
data holds the payload bytes. -/
structure FileEntry where
  name : Bytes
  type : Bytes
  data : Bytes
deriving DecidableEq

/-- One output entry of extractFilesFromCanvas. -/
structure ExtractedFile where
  name : Bytes
  type : Bytes
  data : Bytes
deriving DecidableEq

/-- JS DataView.getUint8: throws a RangeError (none) when the offset is
outside the buffer. -/
def getUint8 (buf : Bytes) (off : Nat) : Option Nat := buf.get? off

/-- Little-endian 16-bit read at an in-bounds offset. -/
def readU16 (buf : Bytes) (off : Nat) : Nat :=
  buf.getD off 0 + 256 * buf.getD (off + 1) 0

/-- Little-endian 32-bit read at an in-bounds offset. -/
def readU32 (buf : Bytes) (off : Nat) : Nat :=
  buf.getD off 0 + 256 * buf.getD (off + 1) 0 + 65536 * buf.getD (off + 2) 0
    + 16777216 * buf.getD (off + 3) 0

/-- JS DataView.getUint16(off, true): RangeError when off + 2 exceeds the buffer. -/
def getUint16LE (buf : Bytes) (off : Nat) : Option Nat :=
  if off + 2 ≤ buf.length then some (readU16 buf off) else none

/-- JS DataView.getUint32(off, true): RangeError when off + 4 exceeds the buffer. -/
def getUint32LE (buf : Bytes) (off : Nat) : Option Nat :=
  if off + 4 ≤ buf.length then some (readU32 buf off) else none

/-- JS DataView.setUint8: RangeError when the byte would fall outside the buffer. -/
def setUint8 (buf : Bytes) (off v : Nat) : Option Bytes :=
  if off + 1 ≤ buf.length then some (buf.set off (v % 256)) else none

/-- JS DataView.setUint16(off, v, true): RangeError when off + 2 exceeds the buffer. -/
def setUint16LE (buf : Bytes) (off v : Nat) : Option Bytes :=
  if off + 2 ≤ buf.length then
    some ((buf.set off (v % 256)).set (off + 1) (v / 256 % 256))
  else none

/-- JS DataView.setUint32(off, v, true): writes the four bytes off..off+3,
RangeError when off + 4 exceeds the buffer. -/
def setUint32LE (buf : Bytes) (off v : Nat) : Option Bytes :=
  if off + 4 ≤ buf.length then
    some ((((buf.set off (v % 256)).set (off + 1) (v / 256 % 256)).set
      (off + 2) (v / 65536 % 256)).set (off + 3) (v / 16777216 % 256))
  else none

/-- JS Uint8Array.prototype.set(src, off): RangeError when the source does
not fit at the offset. -/
def typedArraySet (dst src : Bytes) (off : Nat) : Option Bytes :=
  if off + src.length ≤ dst.length then
    some (dst.take off ++ src.map (fun b => b % 256) ++ dst.drop (off + src.length))
  else none

/-- JS slice/subarray-style clamped slice: bytes start .. start + len - 1. -/
def sliceBytes (buf : Bytes) (start len : Nat) : Bytes :=
  (buf.drop start).take len

/-- Applies a list of (index, value) byte writes; used only to build the
concrete test buffers appearing in counterexamples and witnesses. -/
def patchBytes (buf : Bytes) (ps : List (Nat × Nat)) : Bytes :=
  ps.foldl (fun b p => b.set p.1 p.2) buf

/-- UTF-8 bytes of the string application/octet-stream. -/
def octetStream : Bytes :=
  [97, 112, 112, 108, 105, 99, 97, 116, 105, 111, 110, 47, 111, 99, 116, 101,
   116, 45, 115, 116, 114, 101, 97, 109]

/- ## Dimension planner (canvas.js lines 38-64, part_001 lines 12-25) -/

/-- Math.ceil(Math.sqrt t) on a natural number. -/
def ceilSqrt (t : Nat) : Nat :=
  if Nat.sqrt t * Nat.sqrt t = t then Nat.sqrt t else Nat.sqrt t + 1

/-- The totalSize accumulation of calculateCanvasSizeForFiles
(canvas.js lines 40-46). -/
def containerTotalSize (files : List FileEntry) : Nat :=
  files.foldl (fun acc f => acc + FILE_HEADER_SIZE + f.data.length) HEADER_SIZE

/-- The dimension block shared verbatim by calculateCanvasSizeForFiles
(canvas.js lines 49-58) and calculateCanvasSize (part_001 lines 13-24):
side = ceil(sqrt(pixels)), width rounded up to even, height =
ceil(pixels / width). -/
def plannerDims (totalPixelsNeeded : Nat) : Nat × Nat :=
  let side := ceilSqrt totalPixelsNeeded
  let width := if side % 2 = 0 then side else side + 1
  let height := (totalPixelsNeeded + width - 1) / width
  (width, height)

/-- canvas.js lines 38-59: canvas dimensions (width, height) for a list of files. -/
def calculateCanvasSizeForFiles (files : List FileEntry) : Nat × Nat :=
  plannerDims ((containerTotalSize files + 2) / 3)

/-- canvas.js lines 62-64: the single-buffer wrapper, delegating to the
multi-file planner with one header-only file of the given byte length. -/
def calculateCanvasSize (byteLength : Nat) : Nat × Nat :=
  calculateCanvasSizeForFiles [⟨[], [], List.replicate byteLength 0⟩]

/- ## Container serializer (canvas.js lines 73-152) -/

/-- canvas.js line 100: file.type with the falsy empty string replaced by
application/octet-stream, then UTF-8 encoded. -/
def encodeMimeBytes (t : Bytes) : Bytes :=
  if t = [] then octetStream else t

/-- canvas.js lines 75-89: the 64-byte main header with magic F2P1,
version 1 and the file count. -/
def mainHeader (fileCount : Nat) : Option Bytes := do
  let h0 := List.replicate HEADER_SIZE 0
  let h1 ← setUint8 h0 0 0x46
  let h2 ← setUint8 h1 1 0x32
  let h3 ← setUint8 h2 2 0x50
  let h4 ← setUint8 h3 3 0x31
  let h5 ← setUint8 h4 4 1
  setUint8 h5 5 fileCount

/-- canvas.js lines 98-118: one 128-byte per-file header.  The final
setUint32 at offset 127 spans bytes 127..130 of the 128-byte buffer, which
in JS raises a RangeError (modelled as none). -/
def mkFileHeader (file : FileEntry) (dataOffset : Nat) : Option Bytes := do
  let nameBytes := file.name
  let mimeBytes := encodeMimeBytes file.type
  let fh0 := List.replicate FILE_HEADER_SIZE 0
  let nameLength := min nameBytes.length 100
  let fh1 ← setUint16LE fh0 0 nameLength
  let fh2 ← typedArraySet fh1 (nameBytes.take nameLength) 2
  let mimeLength := min mimeBytes.length 20
  let fh3 ← setUint8 fh2 102 mimeLength
  let fh4 ← typedArraySet fh3 (mimeBytes.take mimeLength) 103
  let fh5 ← setUint32LE fh4 123 file.data.length
  setUint32LE fh5 127 dataOffset

/-- canvas.js lines 93-123: builds the per-file headers in order while
accumulating the running dataOffset. -/
def buildHeadersLoop : List FileEntry → Nat → Option (List Bytes)
  | [], _ => some []
  | f :: fs, dataOffset => do
    let fh ← mkFileHeader f dataOffset
    let rest ← buildHeadersLoop fs (dataOffset + f.data.length)
    some (fh :: rest)

/-- The container-building part of encodeFilesToCanvas (canvas.js lines
73-149): main header, then the (at most 255) per-file headers, then the
concatenated payloads.  none models the call throwing. -/
def buildContainer (files : List FileEntry) : Option Bytes := do
  let fileCount := min files.length 255
  let hdr ← mainHeader fileCount
  let kept := files.take fileCount
  let fhs ← buildHeadersLoop kept 0
  some (hdr ++ fhs.flatten ++ (kept.map FileEntry.data).flatten)

/- ## Multi-file pixel writer (canvas.js lines 159-216) -/

/-- The pixel loop of encodeBufferToCanvas (canvas.js lines 178-196): the
iteration index i runs while i < byteLength * 8 / 6 (in naturals: while
3 * i < 4 * byteLength, hence (4 * len + 2) / 3 iterations), and each
iteration writes one RGBA pixel from a 6-bit slice of the buffer,
quantized by 51 and 85.  Chunking does not alter the writes, so the loop
is modelled as a single fold. -/
def encodeBufferImage (buf : Bytes) (numPixels : Nat) : Bytes :=
  (List.range ((4 * buf.length + 2) / 3)).foldl
    (fun img i =>
      let byteIndex := i * 3 / 4
      let bitOffset := i * 6 % 8
      if byteIndex + 1 < buf.length then
        let value :=
          (buf.getD byteIndex 0 * 256 + buf.getD (byteIndex + 1) 0)
            / 2 ^ (10 - bitOffset) % 64
        (((img.set (4 * i) (value / 16 * 51 % 256)).set
            (4 * i + 1) (value / 4 % 4 * 85 % 256)).set
            (4 * i + 2) (value % 4 * 85 % 256)).set (4 * i + 3) 255
      else img)
    (List.replicate (4 * numPixels) 0)

/- ## Single-file pixel writer (part_001 lines 85-117, canvas.js lines 276-307) -/

/-- One RGBA pixel store of the single-file writer; Uint8Array stores wrap
values modulo 256 and the alpha channel is set to 255. -/
def writePixel (img : Bytes) (p r g b : Nat) : Bytes :=
  (((img.set (4 * p) (r % 256)).set (4 * p + 1) (g % 256)).set
    (4 * p + 2) (b % 256)).set (4 * p + 3) 255

/-- The body of one chunk of the single-file writer (part_001 lines 88-98):
i starts at the chunk start and advances by 3 for count iterations (count =
the number of loop passes, ceil((endI - start) / 3)).  When i is not a
multiple of 3 the JS pixel index (i / 3) * 4 is fractional and every store
into the typed array is silently dropped, so only i % 3 = 0 writes land. -/
def sfEncodeChunkIter (combined : Bytes) : Nat → Nat → Bytes → Bytes
  | 0, _, img => img
  | c + 1, i, img =>
    sfEncodeChunkIter combined c (i + 3)
      (if i % 3 = 0 then
        writePixel img (i / 3) (combined.getD i 0) (combined.getD (i + 1) 0)
          (combined.getD (i + 2) 0)
      else img)

/-- The chunked processChunk recursion of the single-file writer
(part_001 lines 85-113).  The fuel bound strictly exceeds the number of
chunks (each continued chunk advances start by CHUNK_SIZE ≥ 1), so the
fuel-exhausted base case is unreachable; the loop stops through its own
end < combined.length test exactly as the source does. -/
def sfEncodeLoop (combined : Bytes) : Nat → Nat → Bytes → Bytes
  | 0, _, img => img
  | fuel + 1, start, img =>
    let endI := min (start + CHUNK_SIZE) combined.length
    let img2 := sfEncodeChunkIter combined ((endI - start + 2) / 3) start img
    if endI < combined.length then sfEncodeLoop combined fuel endI img2 else img2

/-- The full single-file pixel write of the combined (header ++ data)
buffer into a canvas of numPixels RGBA pixels. -/
def sfEncodeImage (combined : Bytes) (numPixels : Nat) : Bytes :=
  sfEncodeLoop combined (combined.length + 1) 0 (List.replicate (4 * numPixels) 0)

/-- The chunk-end positions reported by the single-file writer
(part_001 lines 86, 100-103): each chunk reports end = min(start +
CHUNK_SIZE, total) and the loop continues while end < total. -/
def encodeChunkEnds (total : Nat) : Nat → Nat → List Nat
  | 0, _ => []
  | fuel + 1, start =>
    let e := min (start + CHUNK_SIZE) total
    if e < total then e :: encodeChunkEnds total fuel e else [e]

/-- The progress fractions end / combined.length reported by one
successful single-file encode of a combined buffer of the given total
length. -/
def sfEncodeReports (total : Nat) : List ℚ :=
  (encodeChunkEnds total (total + 1) 0).map (fun e : Nat => (e : ℚ) / (total : ℚ))

/- ## Single-file decoder (part_001 lines 131-234) -/

/-- The throw sites of decodeFileFromCanvas. -/
inductive SFError where
  | invalidDataLength
  | insufficientData
deriving DecidableEq

/-- The rational value of one recorded progress callback, whose JS
argument numerator / denominator is stored as the pair (numerator,
denominator). -/
def ratOf (p : Nat × Nat) : ℚ := (p.1 : ℚ) / (p.2 : ℚ)

/-- The sequence of progress fractions denoted by a recorded callback list. -/
def reportFractions (l : List (Nat × Nat)) : List ℚ := l.map ratOf

/-- The resolved value of decodeFileFromCanvas together with the progress
callbacks passed to progressCallback, in order, each recorded as the
(bytesExtracted, dataLength) pair whose quotient is the JS argument. -/
structure SFDecoded where
  filename : Bytes
  mimeType : Bytes
  payload : Bytes
  reports : List (Nat × Nat)
deriving DecidableEq

/-- part_001 lines 144-154: the 32 header bytes, read from the RGB
channels of the first 11 pixels (out-of-range canvas reads give undefined,
stored as 0). -/
def sfHeaderBytes (px : Bytes) : Bytes :=
  (((List.range 11).map
    (fun p => [px.getD (4 * p) 0, px.getD (4 * p + 1) 0, px.getD (4 * p + 2) 0])).flatten).take
    SF_HEADER_SIZE

/-- The dataLength field the embedded single-file header declares
(part_001 line 171: getUint32 at offset 28). -/
def sfDeclaredLength (px : Bytes) : Nat :=
  readU32 (sfHeaderBytes px) 28

/-- One chunk of the single-file reader (part_001 lines 193-204): count =
endPixel - startPixel pixel passes from pixel i; header pixels (dataIndex
negative) are skipped and each remaining pixel appends its R, G, B bytes
while fewer than dataLength bytes have been extracted. -/
def sfReadChunkIter (px : Bytes) (dataLength : Nat) : Nat → Nat → Bytes → Bytes
  | 0, _, acc => acc
  | c + 1, i, acc =>
    sfReadChunkIter px dataLength c (i + 1)
      (if 3 * i < SF_HEADER_SIZE then acc
       else acc ++ ([px.getD (4 * i) 0, px.getD (4 * i + 1) 0,
         px.getD (4 * i + 2) 0].take (dataLength - acc.length)))

/-- The chunked processChunk recursion of the single-file reader
(part_001 lines 190-223), returning the extracted bytes and the reported
progress fractions bytesExtracted / dataLength.  The fuel bound strictly
exceeds the number of chunks (each continued chunk strictly increases the
start pixel below totalPixels), so the fuel base case is unreachable. -/
def sfReadLoop (px : Bytes) (dataLength totalPixels : Nat) :
    Nat → Nat → Bytes → List (Nat × Nat) → Bytes × List (Nat × Nat)
  | 0, _, acc, reports => (acc, reports)
  | fuel + 1, startPixel, acc, reports =>
    let endPixel := min (startPixel + PIXEL_CHUNK) totalPixels
    let acc2 := sfReadChunkIter px dataLength (endPixel - startPixel) startPixel acc
    let reports2 := reports ++ [(acc2.length, dataLength)]
    if endPixel < totalPixels then
      sfReadLoop px dataLength totalPixels fuel endPixel acc2 reports2
    else (acc2, reports2)

/-- part_001 lines 131-228: decode one file from a w × h canvas whose RGBA
data is px.  The first check compares against w*h*3 - 32 as a JS number,
which can be negative, hence the Int comparison. -/
def decodeFileFromCanvas (w h : Nat) (px : Bytes) : Except SFError SFDecoded :=
  let header := sfHeaderBytes px
  let filenameLength := readU16 header 0
  let filename := sliceBytes header 2 (min 20 filenameLength)
  let mimeLength := readU16 header 22
  let mimeType := if 0 < mimeLength then sliceBytes header 24 (min 8 mimeLength)
    else octetStream
  let dataLength := readU32 header 28
  if dataLength = 0 ∨ (dataLength : Int) > ((w * h * 3 : Nat) : Int) - (SF_HEADER_SIZE : Int) then
    Except.error SFError.invalidDataLength
  else
    let totalPixelsNeeded := (dataLength + SF_HEADER_SIZE + 2) / 3
    if totalPixelsNeeded > w * h then Except.error SFError.insufficientData
    else
      let startPixel := (SF_HEADER_SIZE + 2) / 3
      let r := sfReadLoop px dataLength totalPixelsNeeded (totalPixelsNeeded + 1)
        startPixel [] []
      Except.ok ⟨filename, mimeType,
        r.1 ++ List.replicate (dataLength - r.1.length) 0, r.2⟩

/- ## Multi-file container parser (canvas.js lines 337-417)

The pixel-to-buffer prelude (extractDataFromCanvas, referenced at canvas.js
line 335) is not among the repository's source files; the parsing stage
below operates on the raw byte buffer it yields, which is how the
container format itself is specified. -/

/-- The throw sites of the parsing stage of extractFilesFromCanvas, one
constructor per distinct error of the source (rangeError covers DataView
reads past the end of the buffer, which the surrounding catch re-wraps). -/
inductive ExtractError where
  | rangeError
  | invalidMagic
  | unsupportedVersion (v : Nat)
  | noFiles
  | noValidFiles
deriving DecidableEq

/-- canvas.js line 381: the decoded mime type of one entry; a zero
mime_length yields application/octet-stream. -/
def decodedType (buf : Bytes) (offset mimeLength : Nat) : Bytes :=
  if 0 < mimeLength then sliceBytes buf (offset + 103) (min 20 mimeLength)
  else octetStream

/-- canvas.js lines 363-411: the header-reading loop, iterating the
declared file count with a running offset.  Note that the bounds-violation
branch (continue) recurses with the same offset, exactly as the source,
whose offset += FILE_HEADER_SIZE sits after the continue. -/
def readEntriesAux (buf : Bytes) (fileCount : Nat) :
    Nat → Nat → List ExtractedFile → Except ExtractError (List ExtractedFile)
  | 0, _, files => Except.ok files
  | remaining + 1, offset, files =>
    if offset + FILE_HEADER_SIZE > buf.length then Except.ok files
    else
      match getUint16LE buf offset, getUint8 buf (offset + 102) with
      | some nameLength, some mimeLength =>
        match getUint32LE buf (offset + 123), getUint32LE buf (offset + 127) with
        | some size, some dataOffset =>
          let name := sliceBytes buf (offset + 2) (min 100 nameLength)
          let ftype := decodedType buf offset mimeLength
          let dataStart := HEADER_SIZE + fileCount * FILE_HEADER_SIZE + dataOffset
          let dataEnd := dataStart + size
          if dataEnd > buf.length then
            readEntriesAux buf fileCount remaining offset files
          else
            readEntriesAux buf fileCount remaining (offset + FILE_HEADER_SIZE)
              (files ++ [⟨name, ftype, sliceBytes buf dataStart size⟩])
        | _, _ => Except.error ExtractError.rangeError
      | _, _ => Except.error ExtractError.rangeError

/-- The container-parsing stage of extractFilesFromCanvas (canvas.js lines
337-417): magic and version checks with JS short-circuit evaluation, the
empty-container check, the entry loop and the final no-valid-entries
check. -/
def extractFilesFromBuffer (buf : Bytes) : Except ExtractError (List ExtractedFile) :=
  match getUint8 buf 0 with
  | none => Except.error ExtractError.rangeError
  | some b0 =>
    if b0 ≠ 0x46 then Except.error ExtractError.invalidMagic else
    match getUint8 buf 1 with
    | none => Except.error ExtractError.rangeError
    | some b1 =>
      if b1 ≠ 0x32 then Except.error ExtractError.invalidMagic else
      match getUint8 buf 2 with
      | none => Except.error ExtractError.rangeError
      | some b2 =>
        if b2 ≠ 0x50 then Except.error ExtractError.invalidMagic else
        match getUint8 buf 3 with
        | none => Except.error ExtractError.rangeError
        | some b3 =>
          if b3 ≠ 0x31 then Except.error ExtractError.invalidMagic else
          match getUint8 buf 4 with
          | none => Except.error ExtractError.rangeError
          | some version =>
            if version ≠ 1 then Except.error (ExtractError.unsupportedVersion version) else
            match getUint8 buf 5 with
            | none => Except.error ExtractError.rangeError
            | some fileCount =>
              if fileCount = 0 then Except.error ExtractError.noFiles else
              match readEntriesAux buf fileCount fileCount HEADER_SIZE [] with
              | Except.error e => Except.error e
              | Except.ok files =>
                if files = [] then Except.error ExtractError.noValidFiles
                else Except.ok files

/- ## Concrete inputs used by the counterexamples and witnesses -/

/-- The spec section 8 scenario: a.txt / text/plain / [1,2,3] and
b.bin / application/octet-stream / []. -/
def scenarioFiles : List FileEntry :=
  [⟨[97, 46, 116, 120, 116], [116, 101, 120, 116, 47, 112, 108, 97, 105, 110], [1, 2, 3]⟩,
   ⟨[98, 46, 98, 105, 110], octetStream, []⟩]

/-- A single entry whose 150-byte name exceeds the 100-byte limit. -/
def longNameEntry : FileEntry := ⟨List.replicate 150 97, [], [1]⟩

/-- A 324-byte container declaring two entries: entry 0 (at offset 64)
declares a 1000-byte payload, far beyond the 4-byte data section; entry 1
(at offset 192) declares name b, a zero mime length, size 4 and data
offset 0, so its payload bounds 320..324 lie inside the buffer. -/
def c5buf : Bytes :=
  patchBytes (List.replicate 324 0)
    [(0, 0x46), (1, 0x32), (2, 0x50), (3, 0x31), (4, 1), (5, 2),
     (64, 1), (66, 97), (187, 232), (188, 3),
     (192, 1), (194, 98), (315, 4)]

/-- RGBA data of a 4 × 3 canvas whose embedded single-file header declares
dataLength = 1 (header byte 28 lives in pixel 9, channel G, i.e. index 37). -/
def c7px : Bytes := (List.replicate 48 0).set 37 1

/-- RGBA data of a 4 × 3 canvas whose embedded single-file header declares
dataLength = 100, exceeding the grid capacity 4 * 3 * 3 = 36. -/
def c8px : Bytes := (List.replicate 48 0).set 37 100

/-- A valid 195-byte container with one entry: name a, zero mime length,
size 1, data offset 0; its payload is the single byte at offset 192. -/
def c10buf : Bytes :=
  patchBytes (List.replicate 195 0)
    [(0, 0x46), (1, 0x32), (2, 0x50), (3, 0x31), (4, 1), (5, 1),
     (64, 1), (66, 97), (187, 1)]

/-- part_001 lines 12-25: the single-file dimension planner, sizing
byteLength + 32 header bytes at 3 bytes per pixel with an even,
square-biased width. -/
def sfCalculateCanvasSize (byteLength : Nat) : Nat × Nat :=
  plannerDims ((byteLength + SF_HEADER_SIZE + 2) / 3)

/- ## Helper lemmas -/

theorem bytesGetD_set_ne (l : Bytes) (i j v : Nat) (h : i ≠ j) :
    (l.set i v).getD j 0 = l.getD j 0 := by
  rw [List.getD_eq_getD_get?, List.getD_eq_getD_get?, List.get?_set_ne _ _ h]

theorem bytesGetD_set_self (l : Bytes) (i v : Nat) (h : i < l.length) :
    (l.set i v).getD i 0 = v := by
  rw [List.getD_eq_getD_get?, List.get?_set_eq_of_lt _ h]
  rfl

theorem writePixel_length (img : Bytes) (p r g b : Nat) :
    (writePixel img p r g b).length = img.length := by
  simp [writePixel]

theorem ceilDiv_mul_ge (a w : Nat) (hw : 0 < w) : a ≤ w * ((a + w - 1) / w) := by
  have h1 := Nat.div_add_mod (a + w - 1) w
  have h2 := Nat.mod_lt (a + w - 1) hw
  omega

theorem three_mul_ceilDiv_ge (t : Nat) : t ≤ 3 * ((t + 2) / 3) := by
  have h1 := Nat.div_add_mod (t + 2) 3
  have h2 := Nat.mod_lt (t + 2) (show 0 < 3 by omega)
  omega

theorem containerTotalSize_ge (files : List FileEntry) :
    HEADER_SIZE ≤ containerTotalSize files := by
  suffices h : ∀ (l : List FileEntry) (acc : Nat),
      acc ≤ l.foldl (fun a f => a + FILE_HEADER_SIZE + f.data.length) acc by
    exact h files HEADER_SIZE
  intro l
  induction l with
  | nil => intro acc; exact Nat.le_refl acc
  | cons f fs ih =>
    intro acc
    exact Nat.le_trans (by omega) (ih (acc + FILE_HEADER_SIZE + f.data.length))

theorem containerTotalSize_singleton (name type data : Bytes) :
    containerTotalSize [⟨name, type, data⟩] =
      HEADER_SIZE + FILE_HEADER_SIZE + data.length := rfl

theorem planner_spec (p : Nat) (hp : 0 < p) :
    p ≤ (plannerDims p).1 * (plannerDims p).2 ∧ (plannerDims p).1 % 2 = 0 := by
  have hside : 0 < ceilSqrt p := by
    unfold ceilSqrt
    by_cases hq : Nat.sqrt p * Nat.sqrt p = p
    · rw [if_pos hq]
      rcases Nat.eq_zero_or_pos (Nat.sqrt p) with h0 | h1
      · exfalso; rw [h0] at hq; omega
      · exact h1
    · rw [if_neg hq]; omega
  have hdims : plannerDims p =
      ((if ceilSqrt p % 2 = 0 then ceilSqrt p else ceilSqrt p + 1),
        (p + (if ceilSqrt p % 2 = 0 then ceilSqrt p else ceilSqrt p + 1) - 1) /
          (if ceilSqrt p % 2 = 0 then ceilSqrt p else ceilSqrt p + 1)) := rfl
  rw [hdims]
  by_cases h : ceilSqrt p % 2 = 0
  · rw [if_pos h]
    exact ⟨ceilDiv_mul_ge p (ceilSqrt p) hside, h⟩
  · rw [if_neg h]
    exact ⟨ceilDiv_mul_ge p (ceilSqrt p + 1) (by omega), by omega⟩

/-- C4: for every file list and every non-negative byte length, the
dimension planners (calculateCanvasSizeForFiles of canvas.js and
calculateCanvasSize of part_001, plus the canvas.js wrapper) return
dimensions whose byte capacity width * height * 3 covers the input size,
with an always-even width.  The functions are pure by construction in this
embedding, mirroring the source, which reads no state. -/
theorem C4_dimension_planner_capacity_even (files : List FileEntry) (n : Nat) :
    containerTotalSize files ≤
      3 * ((calculateCanvasSizeForFiles files).1 * (calculateCanvasSizeForFiles files).2)
  ∧ (calculateCanvasSizeForFiles files).1 % 2 = 0
  ∧ n ≤ 3 * ((sfCalculateCanvasSize n).1 * (sfCalculateCanvasSize n).2)
  ∧ (sfCalculateCanvasSize n).1 % 2 = 0
  ∧ n ≤ 3 * ((calculateCanvasSize n).1 * (calculateCanvasSize n).2)
  ∧ (calculateCanvasSize n).1 % 2 = 0 := by
  have h0 : ∀ t : Nat, 0 < t →
      t ≤ 3 * ((plannerDims ((t + 2) / 3)).1 * (plannerDims ((t + 2) / 3)).2)
        ∧ (plannerDims ((t + 2) / 3)).1 % 2 = 0 := by
    intro t ht
    have hp : 0 < (t + 2) / 3 := by
      have h1 := Nat.div_add_mod (t + 2) 3
      have h2 := Nat.mod_lt (t + 2) (show 0 < 3 by omega)
      omega
    obtain ⟨h1, h2⟩ := planner_spec ((t + 2) / 3) hp
    refine ⟨?_, h2⟩
    calc t ≤ 3 * ((t + 2) / 3) := three_mul_ceilDiv_ge t
    _ ≤ 3 * ((plannerDims ((t + 2) / 3)).1 * (plannerDims ((t + 2) / 3)).2) :=
        Nat.mul_le_mul_left 3 h1
  have hH : (0 : Nat) < HEADER_SIZE := by unfold HEADER_SIZE; omega
  have hmulti := h0 (containerTotalSize files)
    (Nat.lt_of_lt_of_le hH (containerTotalSize_ge files))
  have hsf := h0 (n + SF_HEADER_SIZE) (by unfold SF_HEADER_SIZE; omega)
  have hwrap := h0 (containerTotalSize [⟨[], [], List.replicate n 0⟩])
    (Nat.lt_of_lt_of_le hH (containerTotalSize_ge [⟨[], [], List.replicate n 0⟩]))
  have e1 : calculateCanvasSizeForFiles files =
      plannerDims ((containerTotalSize files + 2) / 3) := rfl
  have e2 : sfCalculateCanvasSize n = plannerDims ((n + SF_HEADER_SIZE + 2) / 3) := rfl
  have e3 : calculateCanvasSize n =
      plannerDims ((containerTotalSize [⟨[], [], List.replicate n 0⟩] + 2) / 3) := rfl
  rw [e1, e2, e3]
  refine ⟨hmulti.1, hmulti.2, ?_, hsf.2, ?_, hwrap.2⟩
  · exact Nat.le_trans (by omega) hsf.1
  · have hlen : containerTotalSize [⟨[], [], List.replicate n 0⟩] =
        HEADER_SIZE + FILE_HEADER_SIZE + n := by
      rw [containerTotalSize_singleton]
      simp
    exact Nat.le_trans (by omega) hwrap.1

/-- C1: refuted by the code as a round trip never happens; building the
container for the spec section 8 scenario (two well-formed entries) throws
a RangeError, because writing the 4-byte data-offset field at offset 127
of the 128-byte per-file header is out of bounds, so
extractFilesFromCanvas never receives an encoded container to decode. -/
theorem C1_encode_always_throws : buildContainer scenarioFiles = none := by decide

/-- C2: refuted by the code; the 4-byte data-offset write at offset 127 of
the 128-byte EntryHeader buffer (canvas.js line 118) spans bytes 127..130
and raises a RangeError, so the container-building part of
encodeFilesToCanvas fails for every non-empty file list, here shown on a
minimal single-entry input. -/
theorem C2_entry_header_write_out_of_bounds :
    setUint32LE (List.replicate FILE_HEADER_SIZE 0) 127 0 = none
  ∧ buildContainer [⟨[97], [], []⟩] = none := by decide

/-- C9: the truncation round trip is unreachable in the code; an entry
whose 150-byte name exceeds the 100-byte limit never reaches the canvas
because the encoder throws (the out-of-bounds data-offset write at offset
127 of its 128-byte header), so no decode can return its truncated name. -/
theorem C9_truncation_roundtrip_unreachable :
    buildContainer [longNameEntry] = none := by decide

/-- C5: refuted behaviour of the claim, evaluated on a concrete container:
c5buf declares two entries; entry 0 has out-of-range payload bounds while
entry 1 is valid (its size field reads 4, its data offset 0, and its data
span 320..324 lies inside the 324-byte buffer, as the first conjuncts
document; parsing from its header offset 192 would accept it).  Because
the continue branch of the loop does not advance the offset, the loop
re-reads entry 0's header for the second index as well, drops everything
and the whole decode fails with NoValidEntriesError instead of returning
the surviving entry. -/
theorem C5_skipped_entry_stalls_offset :
    c5buf.length = 324
  ∧ getUint32LE c5buf (192 + 123) = some 4
  ∧ getUint32LE c5buf (192 + 127) = some 0
  ∧ readEntriesAux c5buf 2 1 192 [] = Except.ok [⟨[98], octetStream, [0, 0, 0, 0]⟩]
  ∧ extractFilesFromBuffer c5buf = Except.error ExtractError.noValidFiles := by decide

/-- C6 counterexample: a 6-byte buffer, far shorter than the 64-byte fixed
header, whose readable prefix carries a valid magic, version and entry
count; the claim demands FormatError, but the decode fails with
NoValidEntriesError (the header-reading loop breaks immediately and zero
entries survive). -/
theorem C6_counterex_short_buffer_error_class :
    ([0x46, 0x32, 0x50, 0x31, 1, 1] : Bytes).length < HEADER_SIZE
  ∧ extractFilesFromBuffer [0x46, 0x32, 0x50, 0x31, 1, 1] =
      Except.error ExtractError.noValidFiles := by decide

/-- C3 counterexample: the multi-file encoder's buffer writer
(encodeBufferToCanvas) is not the direct 3-bytes-per-pixel mapping the
claim asserts for every encode path: for the buffer [1, 2, 3, 4], channel
R of pixel 0 holds 0, not buffer byte 0 = 1 (the code packs quantized
6-bit values instead). -/
theorem C3_counterex_multifile_pixel_mapping :
    (encodeBufferImage [1, 2, 3, 4] 8).getD 0 0 = 0
  ∧ ([1, 2, 3, 4] : Bytes).getD 0 0 = 1 := by decide

/-- C7 counterexample: a successfully completing read call whose final
reported progress fraction is 0, not 1.0.  The 4 x 3 canvas c7px declares
dataLength 1; the reader's data loop starts at pixel 11 = ceil(32/3),
skipping data byte 0 (which lives in pixel 10 together with the last two
header bytes), so the single chunk extracts nothing and reports 0/1 = 0,
yet the call resolves successfully. -/
theorem C7_counterex_final_progress_below_one :
    decodeFileFromCanvas 4 3 c7px = Except.ok ⟨[], octetStream, [0], [(0, 1)]⟩
  ∧ reportFractions [(0, 1)] = [(0 : ℚ)]
  ∧ ((0 : ℚ) ≠ 1) := by
  refine ⟨by decide, ?_, by norm_num⟩
  simp [reportFractions, ratOf]

/-- C8 counterexample: a 4 x 3 grid (capacity 36 bytes) whose embedded
header declares 100 bytes; the read fails, but with the invalid-data-length
error of part_001 line 174, not with the InsufficientDataError throw site
(part_001 line 182) the claim names. -/
theorem C8_counterex_insufficient_error_name :
    3 * (4 * 3) < sfDeclaredLength c8px
  ∧ decodeFileFromCanvas 4 3 c8px = Except.error SFError.invalidDataLength
  ∧ decodeFileFromCanvas 4 3 c8px ≠ Except.error SFError.insufficientData := by decide

/-- C8 amended: for every pixel grid whose usable capacity w * h * 3 is
smaller than the byte length the embedded header declares, the read fails
and returns no bytes — but through the invalid-data-length check of
part_001 line 173 rather than the InsufficientDataError throw site the
claim names; that second check (part_001 line 182) is unreachable on every
input, as the second conjunct states. -/
theorem C8_capacity_check_error (w h : Nat) (px : Bytes) :
    (3 * (w * h) < sfDeclaredLength px →
      decodeFileFromCanvas w h px = Except.error SFError.invalidDataLength)
  ∧ decodeFileFromCanvas w h px ≠ Except.error SFError.insufficientData := by
  have hsf : SF_HEADER_SIZE = 32 := rfl
  constructor
  · intro hlt
    have hlt2 : 3 * (w * h) < readU32 (sfHeaderBytes px) 28 := hlt
    simp only [decodeFileFromCanvas]
    split
    · rfl
    · rename_i hc
      exfalso
      apply hc
      right
      rw [hsf]
      have hm : w * h * 3 = 3 * (w * h) := by ring
      rw [hm]
      omega
  · simp only [decodeFileFromCanvas]
    split
    · decide
    · split
      · rename_i hc1 hc2
        exfalso
        rw [not_or] at hc1
        obtain ⟨hz, hle⟩ := hc1
        rw [not_lt, hsf] at hle
        have hm : w * h * 3 = 3 * (w * h) := by ring
        rw [hm] at hle
        have hle2 : readU32 (sfHeaderBytes px) 28 + 32 ≤ 3 * (w * h) := by omega
        have h5 : (readU32 (sfHeaderBytes px) 28 + SF_HEADER_SIZE + 2) / 3 ≤
            (3 * (w * h) + 2) / 3 := by
          apply Nat.div_le_div_right
          omega
        have h6 : (3 * (w * h) + 2) / 3 = w * h := by
          rw [Nat.mul_add_div (by omega : 0 < 3)]
          norm_num
        omega
      · intro hcon
        exact Except.noConfusion hcon

/-- C8 witness: the amended theorem applied to the concrete 4 x 3 grid
declaring 100 bytes. -/
theorem C8_capacity_check_error_witness :
    decodeFileFromCanvas 4 3 c8px = Except.error SFError.invalidDataLength
  ∧ decodeFileFromCanvas 4 3 c8px ≠ Except.error SFError.insufficientData :=
  ⟨(C8_capacity_check_error 4 3 c8px).1 (by decide), (C8_capacity_check_error 4 3 c8px).2⟩

/-- C6 amended: decode fails with FormatError (the invalid-magic throw)
whenever a readable prefix byte deviates from F2P1, with FormatError (the
unsupported-version throw) when the magic matches and the readable version
byte differs from 1, and with EmptyContainerError when magic and version
are valid and the entry count byte is 0; but a buffer shorter than the
fixed header size whose readable prefix is a valid magic/version/count
fails with NoValidEntriesError (the header loop breaks at once and zero
entries survive), not with FormatError as the claim stated; in every case
no entry list is returned. -/
theorem C6_header_error_classes (buf : Bytes) :
    (∀ b0 b1 b2 b3,
      buf[0]? = some b0 → buf[1]? = some b1 →
      buf[2]? = some b2 → buf[3]? = some b3 →
      ¬(b0 = 0x46 ∧ b1 = 0x32 ∧ b2 = 0x50 ∧ b3 = 0x31) →
      extractFilesFromBuffer buf = Except.error ExtractError.invalidMagic)
  ∧ (∀ v, buf[0]? = some 0x46 → buf[1]? = some 0x32 →
      buf[2]? = some 0x50 → buf[3]? = some 0x31 →
      buf[4]? = some v → v ≠ 1 →
      extractFilesFromBuffer buf = Except.error (ExtractError.unsupportedVersion v))
  ∧ (buf[0]? = some 0x46 → buf[1]? = some 0x32 →
      buf[2]? = some 0x50 → buf[3]? = some 0x31 →
      buf[4]? = some 1 → buf[5]? = some 0 →
      extractFilesFromBuffer buf = Except.error ExtractError.noFiles)
  ∧ (∀ c, buf[0]? = some 0x46 → buf[1]? = some 0x32 →
      buf[2]? = some 0x50 → buf[3]? = some 0x31 →
      buf[4]? = some 1 → buf[5]? = some c → c ≠ 0 →
      buf.length < HEADER_SIZE + FILE_HEADER_SIZE →
      extractFilesFromBuffer buf = Except.error ExtractError.noValidFiles) := by
  refine ⟨?_, ?_, ?_, ?_⟩
  · intro b0 b1 b2 b3 h0 h1 h2 h3 hmag
    by_cases hb0 : b0 = 0x46
    · by_cases hb1 : b1 = 0x32
      · by_cases hb2 : b2 = 0x50
        · by_cases hb3 : b3 = 0x31
          · exact absurd ⟨hb0, hb1, hb2, hb3⟩ hmag
          · simp [extractFilesFromBuffer, getUint8, h0, h1, h2, h3, hb0, hb1, hb2, hb3]
        · simp [extractFilesFromBuffer, getUint8, h0, h1, h2, hb0, hb1, hb2]
      · simp [extractFilesFromBuffer, getUint8, h0, h1, hb0, hb1]
    · simp [extractFilesFromBuffer, getUint8, h0, hb0]
  · intro v h0 h1 h2 h3 h4 hv
    simp [extractFilesFromBuffer, getUint8, h0, h1, h2, h3, h4, hv]
  · intro h0 h1 h2 h3 h4 h5
    simp [extractFilesFromBuffer, getUint8, h0, h1, h2, h3, h4, h5]
  · intro c h0 h1 h2 h3 h4 h5 hc hlen
    obtain ⟨r, rfl⟩ := Nat.exists_eq_succ_of_ne_zero hc
    have hbreak : HEADER_SIZE + FILE_HEADER_SIZE > buf.length := hlen
    simp [extractFilesFromBuffer, getUint8, h0, h1, h2, h3, h4, h5, readEntriesAux, hbreak]

/-- C6 witness: the four branches of the amended theorem, each applied to
a concrete buffer. -/
theorem C6_header_error_classes_witness :
    extractFilesFromBuffer [0, 0, 0, 0] = Except.error ExtractError.invalidMagic
  ∧ extractFilesFromBuffer [0x46, 0x32, 0x50, 0x31, 2] =
      Except.error (ExtractError.unsupportedVersion 2)
  ∧ extractFilesFromBuffer [0x46, 0x32, 0x50, 0x31, 1, 0] =
      Except.error ExtractError.noFiles
  ∧ extractFilesFromBuffer [0x46, 0x32, 0x50, 0x31, 1, 3] =
      Except.error ExtractError.noValidFiles :=
  ⟨(C6_header_error_classes [0, 0, 0, 0]).1 0 0 0 0 rfl rfl rfl rfl (by decide),
   (C6_header_error_classes [0x46, 0x32, 0x50, 0x31, 2]).2.1 2 rfl rfl rfl rfl rfl
     (by decide),
   (C6_header_error_classes [0x46, 0x32, 0x50, 0x31, 1, 0]).2.2.1 rfl rfl rfl rfl rfl rfl,
   (C6_header_error_classes [0x46, 0x32, 0x50, 0x31, 1, 3]).2.2.2 3 rfl rfl rfl rfl rfl
     rfl (by decide) (by decide)⟩

theorem sliceBytes_ne_nil (buf : Bytes) (s l : Nat) (hl : 0 < l) (hs : s < buf.length) :
    sliceBytes buf s l ≠ [] := by
  unfold sliceBytes
  intro hcon
  have hlen := congrArg List.length hcon
  simp [List.length_take, List.length_drop] at hlen
  omega

theorem decodedType_ne_nil (buf : Bytes) (offset m : Nat) (hoff : offset + 104 ≤ buf.length) :
    decodedType buf offset m ≠ [] := by
  unfold decodedType
  by_cases hm : 0 < m
  · rw [if_pos hm]
    apply sliceBytes_ne_nil
    · omega
    · omega
  · rw [if_neg hm]
    decide

theorem readEntriesAux_type_ne_nil (buf : Bytes) (fileCount : Nat) :
    ∀ (remaining offset : Nat) (files files2 : List ExtractedFile),
      (∀ f ∈ files, f.type ≠ []) →
      readEntriesAux buf fileCount remaining offset files = Except.ok files2 →
      ∀ f ∈ files2, f.type ≠ [] := by
  intro remaining
  induction remaining with
  | zero =>
    intro offset files files2 hinv hok
    simp only [readEntriesAux, Except.ok.injEq] at hok
    rw [← hok]
    exact hinv
  | succ r ih =>
    intro offset files files2 hinv hok
    simp only [readEntriesAux] at hok
    split at hok
    · rw [← Except.ok.inj hok]
      exact hinv
    · rename_i hbound
      split at hok
      · rename_i nameLength mimeLength heq16 heq8
        split at hok
        · rename_i size dataOffset heq32a heq32b
          split at hok
          · exact ih offset files files2 hinv hok
          · refine ih (offset + FILE_HEADER_SIZE) _ files2 ?_ hok
            intro f hf
            rcases List.mem_append.mp hf with hf1 | hf2
            · exact hinv f hf1
            · rcases List.mem_singleton.mp hf2 with rfl
              apply decodedType_ne_nil
              have h128 : FILE_HEADER_SIZE = 128 := rfl
              omega
        · exact absurd hok (by simp)
      · exact absurd hok (by simp)

theorem extractFiles_type_ne_nil (buf : Bytes) (files : List ExtractedFile)
    (hok : extractFilesFromBuffer buf = Except.ok files) :
    ∀ f ∈ files, f.type ≠ [] := by
  unfold extractFilesFromBuffer at hok
  repeat' split at hok
  any_goals cases hok
  exact readEntriesAux_type_ne_nil buf _ _ HEADER_SIZE [] files (by simp) (by assumption)

/-- C10: a decoded entry's mime type is never empty.  The encoder
substitutes application/octet-stream for a missing or empty mime string
before writing the EntryHeader (first conjunct, on the substitution
canvas.js line 100 applies); the decoder returns application/octet-stream
for a stored mime_length of 0 (second conjunct, canvas.js line 381); and
every entry of a successful extract has a non-empty mime type (third
conjunct). -/
theorem C10_mime_never_empty :
    (∀ t : Bytes, encodeMimeBytes t ≠ [] ∧ (t = [] → encodeMimeBytes t = octetStream))
  ∧ (∀ (buf : Bytes) (off : Nat), decodedType buf off 0 = octetStream)
  ∧ (∀ (buf : Bytes) (files : List ExtractedFile),
      extractFilesFromBuffer buf = Except.ok files → ∀ f ∈ files, f.type ≠ []) := by
  refine ⟨?_, ?_, ?_⟩
  · intro t
    unfold encodeMimeBytes
    by_cases ht : t = []
    · rw [if_pos ht]
      exact ⟨by decide, fun _ => rfl⟩
    · rw [if_neg ht]
      exact ⟨ht, fun hcon => absurd hcon ht⟩
  · intro buf off
    rfl
  · intro buf files hok
    exact extractFiles_type_ne_nil buf files hok

/-- C10 witness: the three conjuncts applied to the empty mime string and
to the concrete valid container c10buf, whose single entry decodes with
mime type application/octet-stream. -/
theorem C10_mime_never_empty_witness :
    encodeMimeBytes [] = octetStream
  ∧ decodedType c10buf 64 0 = octetStream
  ∧ (∀ f ∈ [(⟨[97], octetStream, [0]⟩ : ExtractedFile)], f.type ≠ []) :=
  ⟨(C10_mime_never_empty.1 []).2 rfl,
   C10_mime_never_empty.2.1 c10buf 64,
   C10_mime_never_empty.2.2 c10buf [⟨[97], octetStream, [0]⟩] (by decide)⟩

theorem writePixel_getD_ne (img : Bytes) (p r g b j : Nat) (h : j < 4 * p) :
    (writePixel img p r g b).getD j 0 = img.getD j 0 := by
  unfold writePixel
  rw [bytesGetD_set_ne _ (4 * p + 3) j 255 (by omega)]
  rw [bytesGetD_set_ne _ (4 * p + 2) j (b % 256) (by omega)]
  rw [bytesGetD_set_ne _ (4 * p + 1) j (g % 256) (by omega)]
  rw [bytesGetD_set_ne _ (4 * p) j (r % 256) (by omega)]

theorem writePixel_getD_channel (img : Bytes) (p r g b ch : Nat) (hc : ch ≤ 3)
    (hlen : 4 * p + 3 < img.length) :
    (writePixel img p r g b).getD (4 * p + ch) 0 =
      if ch = 0 then r % 256 else if ch = 1 then g % 256
        else if ch = 2 then b % 256 else 255 := by
  unfold writePixel
  interval_cases ch
  · rw [bytesGetD_set_ne _ (4 * p + 3) (4 * p + 0) 255 (by omega)]
    rw [bytesGetD_set_ne _ (4 * p + 2) (4 * p + 0) (b % 256) (by omega)]
    rw [bytesGetD_set_ne _ (4 * p + 1) (4 * p + 0) (g % 256) (by omega)]
    rw [show 4 * p + 0 = 4 * p by omega]
    rw [bytesGetD_set_self _ (4 * p) (r % 256) (by simpa using by omega)]
    norm_num
  · rw [bytesGetD_set_ne _ (4 * p + 3) (4 * p + 1) 255 (by omega)]
    rw [bytesGetD_set_ne _ (4 * p + 2) (4 * p + 1) (b % 256) (by omega)]
    rw [bytesGetD_set_self _ (4 * p + 1) (g % 256) (by simpa using by omega)]
    norm_num
  · rw [bytesGetD_set_ne _ (4 * p + 3) (4 * p + 2) 255 (by omega)]
    rw [bytesGetD_set_self _ (4 * p + 2) (b % 256) (by simpa using by omega)]
    norm_num
  · rw [bytesGetD_set_self _ (4 * p + 3) 255 (by simpa using by omega)]
    norm_num

theorem sfEncodeChunkIter_length (combined : Bytes) :
    ∀ (c i : Nat) (img : Bytes),
      (sfEncodeChunkIter combined c i img).length = img.length := by
  intro c
  induction c with
  | zero => intro i img; rfl
  | succ n ih =>
    intro i img
    simp only [sfEncodeChunkIter]
    rw [ih]
    split
    · exact writePixel_length img _ _ _ _
    · rfl

theorem sfEncodeChunkIter_untouched (combined : Bytes) (j : Nat) :
    ∀ (c i : Nat) (img : Bytes),
      (∀ m, i ≤ m → m % 3 = 0 → j < 4 * (m / 3)) →
      (sfEncodeChunkIter combined c i img).getD j 0 = img.getD j 0 := by
  intro c
  induction c with
  | zero => intro i img _; rfl
  | succ n ih =>
    intro i img h
    simp only [sfEncodeChunkIter]
    rw [ih (i + 3) _ (fun m hm h3 => h m (by omega) h3)]
    split
    · rename_i h3
      exact writePixel_getD_ne img (i / 3) _ _ _ j (h i (Nat.le_refl i) h3)
    · rfl

theorem sfEncodeChunkIter_at (combined : Bytes) :
    ∀ (c i p ch : Nat) (img : Bytes),
      i % 3 = 0 → i ≤ 3 * p → 3 * p < i + 3 * c → ch ≤ 3 → 4 * p + 3 < img.length →
      (sfEncodeChunkIter combined c i img).getD (4 * p + ch) 0 =
        (if ch = 3 then 255 else combined.getD (3 * p + ch) 0 % 256) := by
  intro c
  induction c with
  | zero =>
    intro i p ch img h0 h1 h2 hc hlen
    exfalso
    omega
  | succ n ih =>
    intro i p ch img h0 h1 h2 hc hlen
    simp only [sfEncodeChunkIter]
    by_cases hip : i = 3 * p
    · rw [sfEncodeChunkIter_untouched combined (4 * p + ch) n (i + 3) _
        (by intro m hm h3; omega)]
      rw [if_pos h0]
      have hp3 : i / 3 = p := by omega
      rw [hp3]
      rw [writePixel_getD_channel img p _ _ _ ch hc hlen]
      interval_cases ch
      · norm_num [hip]
      · norm_num [hip]
      · norm_num [hip]
      · norm_num [hip]
    · have himg : 4 * p + 3 <
          (if i % 3 = 0 then
            writePixel img (i / 3) (combined.getD i 0) (combined.getD (i + 1) 0)
              (combined.getD (i + 2) 0)
          else img).length := by
        split <;>
          first
          | exact hlen
          | exact lt_of_lt_of_eq hlen (writePixel_length img _ _ _ _).symm
      exact ih (i + 3) p ch _ (by omega) (by omega) (by omega) hc himg

theorem sfEncodeLoop_untouched (combined : Bytes) (j : Nat) :
    ∀ (fuel start : Nat) (img : Bytes),
      (∀ m, start ≤ m → m % 3 = 0 → j < 4 * (m / 3)) →
      (sfEncodeLoop combined fuel start img).getD j 0 = img.getD j 0 := by
  intro fuel
  induction fuel with
  | zero => intro start img _; rfl
  | succ n ih =>
    intro start img h
    simp only [sfEncodeLoop]
    split
    · rename_i hcont
      have hmin : min (start + CHUNK_SIZE) combined.length = start + CHUNK_SIZE := by
        omega
      rw [ih (min (start + CHUNK_SIZE) combined.length) _ ?_]
      · exact sfEncodeChunkIter_untouched combined j _ start img h
      · intro m hm h3
        exact h m (by omega) h3
    · exact sfEncodeChunkIter_untouched combined j _ start img h

/-- C3 amended: the direct 3-bytes-per-pixel mapping holds on the
single-file encode path: for every combined buffer, every byte index i
inside the first processing chunk (i < CHUNK_SIZE; later chunk starts are
misaligned with the step-3 loop) whose pixel fits the canvas, the writer
stores byte i unmodified in channel i mod 3 of pixel floor(i / 3) and
forces that pixel's alpha to 255.  The multi-file encoder's buffer writer
does not use this mapping (see the counterexample). -/
theorem C3_single_file_direct_mapping (combined : Bytes) (numPixels i : Nat)
    (h1 : i < combined.length) (h2 : i < CHUNK_SIZE) (h3 : i / 3 < numPixels)
    (h4 : combined.getD i 0 < 256) :
    (sfEncodeImage combined numPixels).getD (4 * (i / 3) + i % 3) 0 = combined.getD i 0
  ∧ (sfEncodeImage combined numPixels).getD (4 * (i / 3) + 3) 0 = 255 := by
  have hCS : CHUNK_SIZE = 524288 := rfl
  have key : ∀ ch : Nat, ch ≤ 3 →
      (sfEncodeImage combined numPixels).getD (4 * (i / 3) + ch) 0 =
        (if ch = 3 then 255 else combined.getD (3 * (i / 3) + ch) 0 % 256) := by
    intro ch hch
    unfold sfEncodeImage
    simp only [sfEncodeLoop]
    have hrepl : 4 * (i / 3) + 3 < (List.replicate (4 * numPixels) (0 : Nat)).length := by
      rw [List.length_replicate]
      omega
    have hchunk : ∀ img : Bytes, 4 * (i / 3) + 3 < img.length →
        (sfEncodeChunkIter combined
          ((min (0 + CHUNK_SIZE) combined.length - 0 + 2) / 3) 0 img).getD
            (4 * (i / 3) + ch) 0 =
          (if ch = 3 then 255 else combined.getD (3 * (i / 3) + ch) 0 % 256) := by
      intro img hlen
      exact sfEncodeChunkIter_at combined _ 0 (i / 3) ch img (by omega) (by omega)
        (by omega) hch hlen
    split
    · rename_i hcont
      have hunt : ∀ m, min (0 + CHUNK_SIZE) combined.length ≤ m → m % 3 = 0 →
          4 * (i / 3) + ch < 4 * (m / 3) := by
        intro m hm h3m
        omega
      rw [sfEncodeLoop_untouched combined (4 * (i / 3) + ch) _ _ _ hunt]
      exact hchunk _ hrepl
    · exact hchunk _ hrepl
  constructor
  · have hk := key (i % 3) (by omega)
    rw [hk, if_neg (by omega), Nat.div_add_mod]
    exact Nat.mod_eq_of_lt h4
  · have hk := key 3 (by omega)
    rw [hk, if_pos rfl]

/-- C3 witness: the amended theorem at the concrete buffer [5, 6, 7, 8],
byte index 1 (pixel 0, channel G) on a 3-pixel canvas. -/
theorem C3_single_file_direct_mapping_witness :
    (sfEncodeImage [5, 6, 7, 8] 3).getD (4 * (1 / 3) + 1 % 3) 0 = [5, 6, 7, 8].getD 1 0
  ∧ (sfEncodeImage [5, 6, 7, 8] 3).getD (4 * (1 / 3) + 3) 0 = 255 :=
  C3_single_file_direct_mapping [5, 6, 7, 8] 3 1 (by decide) (by decide) (by decide)
    (by decide)

theorem ratDiv_mono (a b d : Nat) (hab : a ≤ b) :
    (a : ℚ) / (d : ℚ) ≤ (b : ℚ) / (d : ℚ) := by
  rcases Nat.eq_zero_or_pos d with h0 | h1
  · subst h0
    norm_num
  · have hd : (0 : ℚ) < (d : ℚ) := by exact_mod_cast h1
    exact (div_le_div_right hd).mpr (by exact_mod_cast hab)

theorem ratOf_mono (a b d : Nat) (hab : a ≤ b) : ratOf (a, d) ≤ ratOf (b, d) :=
  ratDiv_mono a b d hab

theorem mem_of_getLastQ : ∀ (l : List ℚ) (a : ℚ), a ∈ l.getLast? → a ∈ l := by
  intro l
  induction l with
  | nil => intro a ha; simp at ha
  | cons x xs ih =>
    intro a ha
    cases xs with
    | nil =>
      simp at ha
      simp [ha]
    | cons y ys =>
      rw [List.getLast?_cons_cons] at ha
      exact List.mem_cons_of_mem x (ih a ha)

theorem chainQ_append_single (l : List ℚ) (x : ℚ) (hc : l.Chain' (· ≤ ·))
    (hle : ∀ y ∈ l, y ≤ x) : (l ++ [x]).Chain' (· ≤ ·) := by
  rw [List.chain'_append]
  refine ⟨hc, List.chain'_singleton x, ?_⟩
  intro a ha y hy
  simp at hy
  subst hy
  exact hle a (mem_of_getLastQ l a ha)

theorem encodeChunkEnds_chain (total : Nat) :
    ∀ (fuel start : Nat),
      (encodeChunkEnds total fuel start).Chain' (· ≤ ·)
    ∧ (∀ x ∈ (encodeChunkEnds total fuel start).head?,
        min (start + CHUNK_SIZE) total ≤ x) := by
  intro fuel
  induction fuel with
  | zero =>
    intro start
    exact ⟨List.chain'_nil, by simp [encodeChunkEnds]⟩
  | succ n ih =>
    intro start
    simp only [encodeChunkEnds]
    split
    · rename_i hlt
      constructor
      · rw [List.chain'_cons']
        refine ⟨?_, (ih (min (start + CHUNK_SIZE) total)).1⟩
        intro y hy
        have h2 := (ih (min (start + CHUNK_SIZE) total)).2 y hy
        omega
      · intro x hx
        simp at hx
        omega
    · constructor
      · exact List.chain'_singleton _
      · intro x hx
        simp at hx
        omega

theorem encodeChunkEnds_getLast (total : Nat) :
    ∀ (fuel start : Nat), 1 ≤ fuel → total ≤ start + fuel →
      (encodeChunkEnds total fuel start).getLast? = some total := by
  have hC : CHUNK_SIZE = 524288 := rfl
  intro fuel
  induction fuel with
  | zero =>
    intro start h1 _
    exact absurd h1 (by omega)
  | succ n ih =>
    intro start h1 h2
    simp only [encodeChunkEnds]
    split
    · rename_i hlt
      have hn1 : 1 ≤ n := by omega
      have hrec := ih (min (start + CHUNK_SIZE) total) hn1 (by omega)
      cases hrest : encodeChunkEnds total n (min (start + CHUNK_SIZE) total) with
      | nil =>
        rw [hrest] at hrec
        simp at hrec
      | cons b l2 =>
        rw [hrest] at hrec
        rw [List.getLast?_cons_cons]
        exact hrec
    · rename_i hge
      have : min (start + CHUNK_SIZE) total = total := by omega
      rw [this]
      rfl

theorem sfReadChunkIter_length_mono (px : Bytes) (dataLength : Nat) :
    ∀ (c i : Nat) (acc : Bytes),
      acc.length ≤ (sfReadChunkIter px dataLength c i acc).length := by
  intro c
  induction c with
  | zero => intro i acc; exact Nat.le_refl _
  | succ n ih =>
    intro i acc
    simp only [sfReadChunkIter]
    refine Nat.le_trans ?_ (ih (i + 1) _)
    split
    · exact Nat.le_refl _
    · rw [List.length_append]
      omega

theorem sfReadLoop_reports_chain (px : Bytes) (dataLength totalPixels : Nat) :
    ∀ (fuel startPixel : Nat) (acc : Bytes) (reports : List (Nat × Nat)),
      (reportFractions reports).Chain' (· ≤ ·) →
      (∀ r ∈ reports, ratOf r ≤ ratOf (acc.length, dataLength)) →
      (reportFractions
        (sfReadLoop px dataLength totalPixels fuel startPixel acc reports).2).Chain'
          (· ≤ ·) := by
  intro fuel
  induction fuel with
  | zero => intro s acc reports h1 _; exact h1
  | succ n ih =>
    intro s acc reports h1 h2
    simp only [sfReadLoop]
    have hmono := sfReadChunkIter_length_mono px dataLength
      (min (s + PIXEL_CHUNK) totalPixels - s) s acc
    have hchain2 : (reportFractions (reports ++
        [((sfReadChunkIter px dataLength (min (s + PIXEL_CHUNK) totalPixels - s) s
          acc).length, dataLength)])).Chain' (· ≤ ·) := by
      unfold reportFractions
      rw [List.map_append]
      apply chainQ_append_single _ _ h1
      intro y hy
      obtain ⟨r, hr, rfl⟩ := List.mem_map.mp hy
      exact le_trans (h2 r hr) (ratOf_mono _ _ _ hmono)
    have hinv2 : ∀ r ∈ reports ++
        [((sfReadChunkIter px dataLength (min (s + PIXEL_CHUNK) totalPixels - s) s
          acc).length, dataLength)],
        ratOf r ≤ ratOf ((sfReadChunkIter px dataLength
          (min (s + PIXEL_CHUNK) totalPixels - s) s acc).length, dataLength) := by
      intro r hr
      rcases List.mem_append.mp hr with hr1 | hr2
      · exact le_trans (h2 r hr1) (ratOf_mono _ _ _ hmono)
      · rcases List.mem_singleton.mp hr2 with rfl
        exact le_refl _
    split
    · exact ih _ _ _ hchain2 hinv2
    · exact hchain2

theorem getLast?_map_ends (f : Nat → ℚ) : ∀ l : List Nat,
    (l.map f).getLast? = l.getLast?.map f := by
  intro l
  induction l with
  | nil => rfl
  | cons x xs ih =>
    cases xs with
    | nil => rfl
    | cons y ys =>
      have h1 : ((x :: y :: ys).map f).getLast? = ((y :: ys).map f).getLast? := by
        simp only [List.map_cons]
        rw [List.getLast?_cons_cons]
      rw [h1, ih, List.getLast?_cons_cons]

/-- C7 amended: the progress fractions reported by the single-file write
path are non-decreasing and end at exactly 1 (first two conjuncts, for a
combined buffer of 32 header bytes plus n data bytes), and the fractions
reported by a successfully completing single-file read are non-decreasing
(third conjunct) — but the read's final fraction can fall short of 1.0
(see the counterexample), so the ends-at-1.0 part of the claim only
survives on the write path. -/
theorem C7_progress_monotone (n w h : Nat) (px : Bytes) (out : SFDecoded) :
    (sfEncodeReports (SF_HEADER_SIZE + n)).Chain' (· ≤ ·)
  ∧ (sfEncodeReports (SF_HEADER_SIZE + n)).getLast? = some 1
  ∧ (decodeFileFromCanvas w h px = Except.ok out →
      (reportFractions out.reports).Chain' (· ≤ ·)) := by
  refine ⟨?_, ?_, ?_⟩
  · unfold sfEncodeReports
    rw [List.chain'_map]
    exact List.Chain'.imp (fun a b hab => ratDiv_mono a b _ hab)
      (encodeChunkEnds_chain (SF_HEADER_SIZE + n) (SF_HEADER_SIZE + n + 1) 0).1
  · unfold sfEncodeReports
    rw [getLast?_map_ends]
    rw [encodeChunkEnds_getLast (SF_HEADER_SIZE + n) (SF_HEADER_SIZE + n + 1) 0
      (by omega) (by omega)]
    simp only [Option.map_some']
    have h32 : SF_HEADER_SIZE = 32 := rfl
    have hne0 : (SF_HEADER_SIZE + n : Nat) ≠ 0 := by omega
    have hne : ((SF_HEADER_SIZE + n : Nat) : ℚ) ≠ 0 := by exact_mod_cast hne0
    rw [div_self hne]
  · intro hok
    simp only [decodeFileFromCanvas] at hok
    split at hok
    · cases hok
    · split at hok
      · cases hok
      · rw [← Except.ok.inj hok]
        exact sfReadLoop_reports_chain px _ _ _ _ [] []
          (by simp [reportFractions]) (by intro r hr; simp at hr)

/-- C7 witness: the amended theorem with n = 0 and the concrete read call
on c7px, whose report list is the single fraction 0/1. -/
theorem C7_progress_monotone_witness :
    (sfEncodeReports (SF_HEADER_SIZE + 0)).Chain' (· ≤ ·)
  ∧ (sfEncodeReports (SF_HEADER_SIZE + 0)).getLast? = some 1
  ∧ (reportFractions ([(0, 1)] : List (Nat × Nat))).Chain' (· ≤ ·) := by
  obtain ⟨a, b, c⟩ := C7_progress_monotone 0 4 3 c7px ⟨[], octetStream, [0], [(0, 1)]⟩
  exact ⟨a, b, c (by decide)⟩
